import Mathlib

/-!
Verification of the fan-out benchmark harness.

The development shallowly embeds the three programs of the repository:

* `subscriber.cpp` — the global subscriber state (`SubState`), the message
  callback (`messageCallback`), the main receive loop with its two timeout
  guards (`runLoop`), and the reported throughput (`reportedThroughput`);
* `aggregator.cpp` — the result-record filter (`keepResult`), the aggregate
  statistics (`computeAggregate`) and the top-level outcome (`aggregatorMain`);
* `publisher.cpp` — a timed event model of one worker thread
  (`workerEvents`), the payload publishing loop (`publishLoop`) and the
  accumulated total (`totalMessagesPublished`).

Machine clock instants are modelled as natural numbers of microseconds; the
value `0` plays the role of a default-constructed `steady_clock::time_point`
(the code itself tests `time_since_epoch().count() == 0` for "unset").
Real-valued statistics computed with `double` in the source are modelled
exactly over `ℚ`.
-/

/-- The subscriber's mutable globals: `messagesReceived`, `benchmarkStarted`,
`benchmarkEnded_Flag`, `startTime`, `endTime` (times in microseconds,
`0` = default-constructed / unset). -/
structure SubState where
  messagesReceived : Nat
  benchmarkStarted : Bool
  benchmarkEnded_Flag : Bool
  startTime : Nat
  endTime : Nat
deriving DecidableEq, Repr

/-- State of the subscriber's globals at program start. -/
def initState : SubState :=
  { messagesReceived := 0
    benchmarkStarted := false
    benchmarkEnded_Flag := false
    startTime := 0
    endTime := 0 }

/-- `messageCallback` from `subscriber.cpp`: invoked once per delivered
message, with `now` the clock reading taken inside the callback.
`START_BENCHMARK` sets the started flag and (re)writes the start instant;
`END_BENCHMARK` (re)writes the end instant and sets the ended flag; any
other message increments the counter when the started flag is set. -/
def messageCallback (now : Nat) (st : SubState) (message : String) : SubState :=
  if message = "START_BENCHMARK" then
    { st with benchmarkStarted := true, startTime := now }
  else if message = "END_BENCHMARK" then
    { st with endTime := now, benchmarkEnded_Flag := true }
  else if st.benchmarkStarted then
    { st with messagesReceived := st.messagesReceived + 1 }
  else
    st

/-- One call to `broker->processMessages(100)`: every queued message is
handed to `messageCallback` in delivery order, paired with the clock
reading at which the callback runs. -/
def runCallbacks (st : SubState) (batch : List (Nat × String)) : SubState :=
  batch.foldl (fun s m => messageCallback m.1 s m.2) st

/-- One iteration of the subscriber's wait loop: the batch of messages the
`processMessages` call delivers, and the clock reading at the subsequent
`elapsedOverall` check. -/
structure Iteration where
  batch : List (Nat × String)
  checkTime : Nat
deriving DecidableEq, Repr

/-- The "set times if benchmark never started" fix-up performed on the two
timeout exits of the wait loop: an unset (`0`) start instant becomes
`waitStart`, an unset end instant becomes the current clock reading. -/
def fixupTimes (now waitStart : Nat) (st : SubState) : SubState :=
  let st1 := if st.startTime = 0 then { st with startTime := waitStart } else st
  if st1.endTime = 0 then { st1 with endTime := now } else st1

/-- The subscriber's `while (!benchmarkEnded)` loop.  Each iteration
processes a message batch, computes the elapsed whole seconds since
`waitStart`, and exits when the ended flag is set, when no start was seen
for more than 15 s (`NO_MESSAGE_TIMEOUT_SECONDS`), or when the total
timeout `timeoutSecs` (= publish duration + 15) is exceeded.  `none` means
the supplied schedule ran out before any exit condition fired. -/
def runLoop (waitStart timeoutSecs : Nat) (st : SubState) :
    List Iteration → Option SubState
  | [] => none
  | it :: rest =>
    let st1 := runCallbacks st it.batch
    let elapsed := (it.checkTime - waitStart) / 1000000
    if st1.benchmarkEnded_Flag then some st1
    else if 15 < elapsed ∧ st1.benchmarkStarted = false then
      some (fixupTimes it.checkTime waitStart st1)
    else if timeoutSecs < elapsed then
      some (fixupTimes it.checkTime waitStart st1)
    else runLoop waitStart timeoutSecs st1 rest

/-- `endTime - startTime` as a signed count of microseconds. -/
def durationUs (st : SubState) : Int :=
  (st.endTime : Int) - (st.startTime : Int)

/-- The reported throughput: `seconds > 0 ? messagesReceived / seconds : 0`
with `seconds = duration_us / 1000000.0`, computed exactly over `ℚ`. -/
def reportedThroughput (received : Nat) (durUs : Int) : ℚ :=
  let seconds : ℚ := (durUs : ℚ) / 1000000
  if 0 < seconds then (received : ℚ) / seconds else 0

/-- The instant latched for `key` after folding a timed message list:
the time of the last message equal to `key`, else the prior value `d`. -/
def lastStampOf (key : String) (d : Nat) (l : List (Nat × String)) : Nat :=
  l.foldl (fun acc m => if m.2 = key then m.1 else acc) d

theorem messageCallback_startTime (now : Nat) (st : SubState) (m : String) :
    (messageCallback now st m).startTime =
      if m = "START_BENCHMARK" then now else st.startTime := by
  unfold messageCallback
  split_ifs <;> rfl

theorem messageCallback_endTime (now : Nat) (st : SubState) (m : String) :
    (messageCallback now st m).endTime =
      if m = "END_BENCHMARK" then now else st.endTime := by
  unfold messageCallback
  split_ifs with h1 h2 <;> simp_all

theorem messageCallback_started (now : Nat) (st : SubState) (m : String) :
    (messageCallback now st m).benchmarkStarted =
      if m = "START_BENCHMARK" then true else st.benchmarkStarted := by
  unfold messageCallback
  split_ifs <;> rfl

theorem messageCallback_flag (now : Nat) (st : SubState) (m : String) :
    (messageCallback now st m).benchmarkEnded_Flag =
      if m = "END_BENCHMARK" then true else st.benchmarkEnded_Flag := by
  unfold messageCallback
  split_ifs with h1 h2 <;> simp_all

theorem runCallbacks_cons (st : SubState) (m : Nat × String)
    (rest : List (Nat × String)) :
    runCallbacks st (m :: rest) = runCallbacks (messageCallback m.1 st m.2) rest := rfl

/-- C1 — amended: the sentinel latches are last-wins, not at-most-once.
After any delivered sequence, the recorded start instant is the time of the
*last* `START_BENCHMARK` occurrence (or the prior value when there is
none), and the end instant is the time of the last `END_BENCHMARK`; a
duplicate sentinel overwrites the latched instant rather than being a
no-op. -/
theorem sentinel_latch_last_wins (st : SubState) (l : List (Nat × String)) :
    (runCallbacks st l).startTime = lastStampOf "START_BENCHMARK" st.startTime l ∧
    (runCallbacks st l).endTime = lastStampOf "END_BENCHMARK" st.endTime l := by
  induction l generalizing st with
  | nil => exact ⟨rfl, rfl⟩
  | cons m rest ih =>
    rw [runCallbacks_cons]
    rcases ih (messageCallback m.1 st m.2) with ⟨hs, he⟩
    constructor
    · rw [hs, messageCallback_startTime]
      rfl
    · rw [he, messageCallback_endTime]
      rfl

/-- C1 — counterexample to the claim as stated: feeding `START_BENCHMARK`
at instant 5 and again at instant 9 leaves the start instant equal to 9,
the *second* occurrence's time, not the first's. -/
theorem sentinel_latch_not_idempotent :
    (runCallbacks initState
      [(5, "START_BENCHMARK"), (9, "START_BENCHMARK")]).startTime = 9 ∧
    ¬ (runCallbacks initState
      [(5, "START_BENCHMARK"), (9, "START_BENCHMARK")]).startTime = 5 := by
  constructor <;> decide

/-- C2 — the code at the failing input: after `START_BENCHMARK` (t=1) and
`END_BENCHMARK` (t=2), a payload message delivered at t=3 — i.e. after the
window is finalized — still increments the received counter, because the
callback gates payload counting only on `benchmarkStarted`, never on
`benchmarkEnded_Flag`. -/
theorem payload_counted_after_end :
    (runCallbacks initState
      [(1, "START_BENCHMARK"), (2, "END_BENCHMARK"), (3, "msg_0_0")]).messagesReceived = 1 ∧
    (runCallbacks initState
      [(1, "START_BENCHMARK"), (2, "END_BENCHMARK"), (3, "msg_0_0")]).benchmarkEnded_Flag = true := by
  constructor <;> decide

/-- C4: the reported per-run throughput.  It equals `received` divided by
the duration in seconds whenever the duration is positive, equals `0` when
the duration is `0` (the `seconds > 0` guard, so no division-by-zero
fault), and the spec's example holds: 1000 messages over 2 000 000 µs
(2.0 s) report 500 msg/s. -/
theorem throughput_formula (received : Nat) (durUs : Int) :
    (durUs = 0 → reportedThroughput received durUs = 0) ∧
    (0 < durUs →
      reportedThroughput received durUs = (received : ℚ) / ((durUs : ℚ) / 1000000)) ∧
    reportedThroughput 1000 2000000 = 500 := by
  refine ⟨?_, ?_, ?_⟩
  · intro h
    subst h
    simp [reportedThroughput]
  · intro h
    have hq : (0 : ℚ) < (durUs : ℚ) / 1000000 := by
      apply div_pos
      · exact_mod_cast h
      · norm_num
    simp only [reportedThroughput, if_pos hq]
  · norm_num [reportedThroughput]

/-- C4 witness: the positive-duration case of `throughput_formula` at the
spec's example input. -/
theorem throughput_formula_witness :
    (0 : Int) < 2000000 ∧
    reportedThroughput 1000 2000000 = (1000 : ℚ) / ((2000000 : ℚ) / 1000000) :=
  ⟨by norm_num, (throughput_formula 1000 2000000).2.1 (by norm_num)⟩

/-- One per-subscriber result record as parsed by `aggregator.cpp`
(`subscriber_id`, `messages_received`, `duration_us`,
`throughput_msg_per_sec`). -/
structure SubscriberResult where
  subscriber_id : String
  messages_received : Nat
  duration_us : Nat
  throughput_msg_per_sec : ℚ
deriving DecidableEq, Repr

/-- The aggregator's admission test for a parsed record:
`!result.subscriber_id.empty() && result.messages_received > 0`. -/
def keepResult (r : SubscriberResult) : Bool :=
  !r.subscriber_id.isEmpty && decide (0 < r.messages_received)

/-- The aggregate statistics printed by `aggregator.cpp`. -/
structure AggregateStats where
  instances : Nat
  avg_messages : Nat
  avg_duration_s : ℚ
  avg_throughput : ℚ
  combined_throughput : ℚ
deriving DecidableEq, Repr

/-- The aggregate computation over the admitted records, field by field as
in `aggregator.cpp`: `avg_messages` uses integer (`uint64_t`) division;
the remaining fields are `double` expressions, modelled exactly over `ℚ`.
`combined_throughput` transcribes
`total_messages / (total_duration_us / 1000000.0 / results.size())`. -/
def computeAggregate (results : List SubscriberResult) : AggregateStats :=
  { instances := results.length
    avg_messages :=
      (results.map (fun r => r.messages_received)).sum / results.length
    avg_duration_s :=
      (((results.map (fun r => r.duration_us)).sum : ℚ) / (results.length : ℚ)) / 1000000
    avg_throughput :=
      (results.map (fun r => r.throughput_msg_per_sec)).sum / (results.length : ℚ)
    combined_throughput :=
      ((results.map (fun r => r.messages_received)).sum : ℚ)
        / (((results.map (fun r => r.duration_us)).sum : ℚ) / 1000000 / (results.length : ℚ)) }

/-- Outcome of the aggregator's main: either the "No results found" error
path (exit code 1) or a printed aggregate report. -/
inductive AggOutcome where
  | noResults : AggOutcome
  | report : AggregateStats → AggOutcome
deriving DecidableEq, Repr

/-- `main` of `aggregator.cpp` after record parsing: filter the records,
error out when none remain, otherwise report the aggregate. -/
def aggregatorMain (records : List SubscriberResult) : AggOutcome :=
  if (records.filter keepResult).isEmpty then AggOutcome.noResults
  else AggOutcome.report (computeAggregate (records.filter keepResult))

/-- The spec's example record (received=100, duration=1 s), its throughput
field computed the way the subscriber reports it. -/
def exampleR1 : SubscriberResult :=
  { subscriber_id := "subscriber_1"
    messages_received := 100
    duration_us := 1000000
    throughput_msg_per_sec := reportedThroughput 100 1000000 }

/-- The spec's example record (received=300, duration=3 s), its throughput
field computed the way the subscriber reports it. -/
def exampleR2 : SubscriberResult :=
  { subscriber_id := "subscriber_2"
    messages_received := 300
    duration_us := 3000000
    throughput_msg_per_sec := reportedThroughput 300 3000000 }

theorem reportedThroughput_exampleR1 : reportedThroughput 100 1000000 = 100 := by
  norm_num [reportedThroughput]

theorem reportedThroughput_exampleR2 : reportedThroughput 300 3000000 = 100 := by
  norm_num [reportedThroughput]

theorem aggregate_example_avg :
    (computeAggregate [exampleR1, exampleR2]).avg_throughput = 100 := by
  simp [computeAggregate, exampleR1, exampleR2,
    reportedThroughput_exampleR1, reportedThroughput_exampleR2]

theorem aggregate_example_combined :
    (computeAggregate [exampleR1, exampleR2]).combined_throughput = 200 := by
  simp [computeAggregate, exampleR1, exampleR2]
  norm_num

/-- C5 — counterexample to the claim's concrete figures: for the two
records (received=100, duration=1 s) and (received=300, duration=3 s) the
per-record throughputs are 100 and 100 msg/s, so the aggregator's average
throughput is 100 msg/s, not the claimed 125. -/
theorem avg_throughput_example_not_125 :
    (computeAggregate [exampleR1, exampleR2]).avg_throughput = 100 ∧
    (computeAggregate [exampleR1, exampleR2]).avg_throughput ≠ 125 := by
  refine ⟨aggregate_example_avg, ?_⟩
  rw [aggregate_example_avg]
  norm_num

/-- C5 — amended: the aggregator computes average messages =
`sum(received)/K` (integer division), average duration = `sum(duration)/K`,
average throughput = `sum(throughput)/K`, and combined throughput =
`sum(received)/average_duration`; on the example pair the average
throughput is 100 (not 125) while the combined throughput is 200, so the
two formulas remain distinct. -/
theorem aggregate_formulas (results : List SubscriberResult)
    (_hK : 0 < results.length) :
    ((computeAggregate results).avg_messages
        = (results.map (fun r => r.messages_received)).sum / results.length
      ∧ (computeAggregate results).avg_duration_s
        = (((results.map (fun r => r.duration_us)).sum : ℚ) / (results.length : ℚ)) / 1000000
      ∧ (computeAggregate results).avg_throughput
        = (results.map (fun r => r.throughput_msg_per_sec)).sum / (results.length : ℚ)
      ∧ (computeAggregate results).combined_throughput
        = ((results.map (fun r => r.messages_received)).sum : ℚ)
            / (computeAggregate results).avg_duration_s)
    ∧ (computeAggregate [exampleR1, exampleR2]).avg_throughput = 100
    ∧ (computeAggregate [exampleR1, exampleR2]).combined_throughput = 200
    ∧ (computeAggregate [exampleR1, exampleR2]).avg_throughput
        ≠ (computeAggregate [exampleR1, exampleR2]).combined_throughput := by
  have hdistinct : (computeAggregate [exampleR1, exampleR2]).avg_throughput
      ≠ (computeAggregate [exampleR1, exampleR2]).combined_throughput := by
    rw [aggregate_example_avg, aggregate_example_combined]
    norm_num
  refine ⟨⟨rfl, rfl, rfl, ?_⟩, aggregate_example_avg, aggregate_example_combined, hdistinct⟩
  show ((results.map (fun r => r.messages_received)).sum : ℚ)
        / (((results.map (fun r => r.duration_us)).sum : ℚ) / 1000000 / (results.length : ℚ))
      = ((results.map (fun r => r.messages_received)).sum : ℚ)
        / ((((results.map (fun r => r.duration_us)).sum : ℚ) / (results.length : ℚ)) / 1000000)
  rw [div_div, div_div, mul_comm]

/-- C5 witness: `aggregate_formulas` applied to the example pair, whose
length is positive. -/
theorem aggregate_formulas_witness :
    0 < ([exampleR1, exampleR2] : List SubscriberResult).length ∧
    (computeAggregate [exampleR1, exampleR2]).avg_throughput = 100 :=
  ⟨by decide, (aggregate_formulas [exampleR1, exampleR2] (by decide)).2.1⟩

/-- C6: an empty input set of records makes the aggregator take the
"No results found" error exit; it never produces a report (and hence no
zero, NaN or defaulted aggregate) from empty input. -/
theorem empty_input_is_error :
    aggregatorMain [] = AggOutcome.noResults ∧
    ∀ stats, aggregatorMain [] ≠ AggOutcome.report stats := by
  refine ⟨rfl, ?_⟩
  intro stats h
  exact AggOutcome.noConfusion h

/-- C10: a record with an empty subscriber id or a zero received count is
silently dropped by the admission filter, and a record set consisting only
of zero-message records is reported as "no results" rather than
aggregated. -/
theorem degenerate_records_excluded :
    (∀ (records : List SubscriberResult) (r : SubscriberResult),
        r.subscriber_id.isEmpty = true ∨ r.messages_received = 0 →
        r ∉ records.filter keepResult)
    ∧ (∀ records : List SubscriberResult,
        (∀ r ∈ records, r.messages_received = 0) →
        aggregatorMain records = AggOutcome.noResults) := by
  constructor
  · intro records r h hmem
    have hkeep := (List.mem_filter.mp hmem).2
    simp only [keepResult, Bool.and_eq_true, Bool.not_eq_true', decide_eq_true_eq] at hkeep
    rcases h with h | h
    · rw [hkeep.1] at h
      exact Bool.noConfusion h
    · omega
  · intro records h
    have hfil : records.filter keepResult = [] := by
      rw [List.filter_eq_nil_iff]
      intro r hr
      simp [keepResult, h r hr]
    simp [aggregatorMain, hfil]

/-- C10 witness: a single record with 100 % message loss (received = 0) is
excluded, so the aggregator reports no results. -/
theorem degenerate_records_excluded_witness :
    aggregatorMain [{ subscriber_id := "subscriber_1", messages_received := 0,
                      duration_us := 5000000, throughput_msg_per_sec := 0 }]
      = AggOutcome.noResults :=
  degenerate_records_excluded.2 _ (fun r hr => by
    rcases List.mem_singleton.mp hr with h
    subst h
    rfl)

/-- One publishing worker thread of `publisher.cpp`, as a timed trace:
`workerId` is the thread index (`0` is the leader), `threadStart` the
instant the thread's post-connect code begins, `attempts` the timed payload
publish calls of the `while (now < endTime)` loop (instant of the call and
whether `publish` returned true), and `endPublishTime` the instant of the
leader's `END_BENCHMARK` publish. -/
structure WorkerRun where
  workerId : Nat
  threadStart : Nat
  attempts : List (Nat × Bool)
  endPublishTime : Nat
deriving DecidableEq, Repr

/-- Delay (ms) between a worker's thread start and its first possible
payload publish: the leader sleeps 200 ms after `START_BENCHMARK` plus the
shared 250 ms pre-publish sleep; every other worker sleeps just the shared
250 ms. -/
def payloadStartOffset (id : Nat) : Nat := if id = 0 then 450 else 250

/-- Well-formedness of a worker trace against the shared deadline
(`startTime + duration` in `main`): every payload call happens after the
worker's mandatory sleeps and strictly before the deadline (the loop
condition `now < endTime` is checked immediately before each publish), and
the leader's `END_BENCHMARK` is published only once its loop has observed
`now >= endTime`. -/
def WorkerWF (deadline : Nat) (w : WorkerRun) : Prop :=
  (∀ a ∈ w.attempts, w.threadStart + payloadStartOffset w.workerId ≤ a.1 ∧ a.1 < deadline)
  ∧ (w.workerId = 0 → deadline ≤ w.endPublishTime)

/-- A publish event on the benchmark channel: a sentinel, or a payload
publish by a given worker with its success flag. -/
inductive PubEvent where
  | sentinelStart : Nat → PubEvent
  | payload : Nat → Nat → Bool → PubEvent
  | sentinelEnd : Nat → PubEvent
deriving DecidableEq, Repr

/-- True for a `START_BENCHMARK` publish event. -/
def isStart : PubEvent → Bool
  | .sentinelStart _ => true
  | _ => false

/-- True for an `END_BENCHMARK` publish event. -/
def isEnd : PubEvent → Bool
  | .sentinelEnd _ => true
  | _ => false

/-- The publish calls a worker issues, in program order: only the thread
with index 0 publishes `START_BENCHMARK` (before its payload loop) and
`END_BENCHMARK` (after it); every worker then contributes its payload
attempts. -/
def workerEvents (w : WorkerRun) : List PubEvent :=
  (if w.workerId = 0 then [PubEvent.sentinelStart w.threadStart] else [])
    ++ w.attempts.map (fun a => PubEvent.payload a.1 w.workerId a.2)
    ++ (if w.workerId = 0 then [PubEvent.sentinelEnd w.endPublishTime] else [])

/-- One iteration of the publishing loop body: `messageCounter++` happens
on every attempt, `messagesPublished++` only when `publish` succeeded. -/
def publishLoopStep (acc : Nat × Nat) (ok : Bool) : Nat × Nat :=
  (if ok then acc.1 + 1 else acc.1, acc.2 + 1)

/-- The worker's publishing loop over its sequence of publish outcomes,
returning `(messagesPublished, messageCounter)`. -/
def publishLoop (attempts : List Bool) : Nat × Nat :=
  attempts.foldl publishLoopStep (0, 0)

/-- A worker's local counter of successful publishes. -/
def workerPublished (w : WorkerRun) : Nat :=
  (publishLoop (w.attempts.map (fun a => a.2))).1

/-- The global `totalMessagesPublished` accumulated by each thread's final
`fetch_add` of its local counter. -/
def totalMessagesPublished (runs : List WorkerRun) : Nat :=
  runs.foldl (fun acc w => acc + workerPublished w) 0

theorem publishLoop_foldl (l : List Bool) :
    ∀ a b : Nat, l.foldl publishLoopStep (a, b) = (a + l.count true, b + l.length) := by
  induction l with
  | nil => intro a b; simp
  | cons ok rest ih =>
    intro a b
    rw [List.foldl_cons, ih]
    cases ok <;> simp [publishLoopStep, List.count_cons] <;> omega

theorem publishLoop_eq (l : List Bool) : publishLoop l = (l.count true, l.length) := by
  have h := publishLoop_foldl l 0 0
  simpa [publishLoop] using h

theorem workerEvents_countP_isStart (w : WorkerRun) :
    (workerEvents w).countP isStart = if w.workerId = 0 then 1 else 0 := by
  by_cases h : w.workerId = 0 <;>
    simp [workerEvents, h, List.countP_append, List.countP_map, List.countP_cons,
      Function.comp, isStart]

theorem workerEvents_countP_isEnd (w : WorkerRun) :
    (workerEvents w).countP isEnd = if w.workerId = 0 then 1 else 0 := by
  by_cases h : w.workerId = 0 <;>
    simp [workerEvents, h, List.countP_append, List.countP_map, List.countP_cons,
      Function.comp, isEnd]

theorem joined_countP_isStart (runs : List WorkerRun) :
    ((runs.map workerEvents).flatten).countP isStart
      = runs.countP (fun w => w.workerId == 0) := by
  induction runs with
  | nil => rfl
  | cons w rs ih =>
    by_cases h : w.workerId = 0 <;>
      simp [List.countP_append, ih, workerEvents_countP_isStart w, List.countP_cons, h] <;>
      omega

theorem joined_countP_isEnd (runs : List WorkerRun) :
    ((runs.map workerEvents).flatten).countP isEnd
      = runs.countP (fun w => w.workerId == 0) := by
  induction runs with
  | nil => rfl
  | cons w rs ih =>
    by_cases h : w.workerId = 0 <;>
      simp [List.countP_append, ih, workerEvents_countP_isEnd w, List.countP_cons, h] <;>
      omega

theorem payload_mem_workerEvents (w : WorkerRun) (t id : Nat) (ok : Bool) :
    PubEvent.payload t id ok ∈ workerEvents w ↔
      ((t, ok) ∈ w.attempts ∧ id = w.workerId) := by
  by_cases h : w.workerId = 0 <;>
    simp [workerEvents, h] <;>
    cases ok <;>
    aesop

/-- C8 — amended: in every well-formed publisher run exactly one worker —
the leader, thread index 0 — publishes the sentinels (one
`START_BENCHMARK`, one `END_BENCHMARK` across all workers), and
`END_BENCHMARK` is issued only after every payload publish of every worker
(payloads are issued strictly before the deadline, the leader's END at or
after it).  `START_BENCHMARK` before every payload, however, holds only
under the scheduling assumption the code leaves to its 250 ms sleep: the
leader must reach its `START_BENCHMARK` publish before any other worker's
250 ms pre-publish sleep has elapsed. -/
theorem leader_sentinel_protocol (deadline : Nat) (runs : List WorkerRun)
    (leader : WorkerRun)
    (hmem : leader ∈ runs) (hid : leader.workerId = 0)
    (hone : runs.countP (fun w => w.workerId == 0) = 1)
    (hwf : ∀ w ∈ runs, WorkerWF deadline w)
    (hsched : ∀ w ∈ runs, leader.threadStart < w.threadStart + 250) :
    (((runs.map workerEvents).flatten).countP isStart = 1 ∧
     ((runs.map workerEvents).flatten).countP isEnd = 1) ∧
    (∀ w ∈ runs, ∀ t id ok, PubEvent.payload t id ok ∈ workerEvents w →
      leader.threadStart < t ∧ t < deadline ∧ deadline ≤ leader.endPublishTime) := by
  refine ⟨⟨?_, ?_⟩, ?_⟩
  · rw [joined_countP_isStart, hone]
  · rw [joined_countP_isEnd, hone]
  · intro w hw t id ok hpe
    rcases (payload_mem_workerEvents w t id ok).mp hpe with ⟨hatt, -⟩
    rcases (hwf w hw).1 (t, ok) hatt with ⟨hlo, hhi⟩
    have hoff : 250 ≤ payloadStartOffset w.workerId := by
      unfold payloadStartOffset
      split <;> omega
    refine ⟨?_, hhi, (hwf leader hmem).2 hid⟩
    have := hsched w hw
    omega

/-- A leader trace used to instantiate the publisher theorems: thread
index 0, thread start at 0 ms, one successful payload at 450 ms, END
published at the 5000 ms deadline. -/
def leaderRunEx : WorkerRun :=
  { workerId := 0, threadStart := 0, attempts := [(450, true)], endPublishTime := 5000 }

/-- A non-leader trace: thread index 1, one successful and one failed
payload after its 250 ms sleep. -/
def workerRunEx : WorkerRun :=
  { workerId := 1, threadStart := 0, attempts := [(250, true), (300, false)],
    endPublishTime := 5000 }

/-- C8 witness: `leader_sentinel_protocol` on the concrete two-worker run
`[leaderRunEx, workerRunEx]` with deadline 5000 ms. -/
theorem leader_sentinel_protocol_witness :
    ((([leaderRunEx, workerRunEx].map workerEvents).flatten.countP isStart = 1 ∧
      ([leaderRunEx, workerRunEx].map workerEvents).flatten.countP isEnd = 1) ∧
     (∀ w ∈ [leaderRunEx, workerRunEx], ∀ t id ok,
        PubEvent.payload t id ok ∈ workerEvents w →
        leaderRunEx.threadStart < t ∧ t < 5000 ∧ 5000 ≤ leaderRunEx.endPublishTime)) :=
  leader_sentinel_protocol 5000 [leaderRunEx, workerRunEx] leaderRunEx
    (by decide) rfl (by decide)
    (by
      intro w hw
      rcases List.mem_cons.mp hw with h | hw2
      · subst h
        exact ⟨by decide, by decide⟩
      · rcases List.mem_cons.mp hw2 with h | hnil
        · subst h
          exact ⟨by decide, by decide⟩
        · cases hnil)
    (by
      intro w hw
      show leaderRunEx.threadStart < w.threadStart + 250
      have h0 : leaderRunEx.threadStart = 0 := rfl
      omega)

/-- C8 — counterexample to the claim as stated: the code has no barrier
between thread start and the payload loop, only sleeps.  In the
well-formed run below the leader thread is delayed 1000 ms (late
scheduling or a slow broker connect), so worker 1 issues a payload at
250 ms, before the leader's `START_BENCHMARK` at 1000 ms: a payload
message precedes the start sentinel. -/
theorem payload_can_precede_start :
    WorkerWF 5000 { workerId := 0, threadStart := 1000,
                    attempts := [(1450, true)], endPublishTime := 5000 } ∧
    WorkerWF 5000 workerRunEx ∧
    PubEvent.sentinelStart 1000 ∈
      workerEvents { workerId := 0, threadStart := 1000,
                     attempts := [(1450, true)], endPublishTime := 5000 } ∧
    PubEvent.payload 250 1 true ∈ workerEvents workerRunEx ∧
    250 < 1000 :=
  ⟨⟨by decide, by decide⟩, ⟨by decide, by decide⟩, by decide, by decide, by decide⟩

/-- C9: a failed publish is simply not counted — the loop's local counter
gains one per *successful* publish while the message counter advances on
every attempt (no retry), a failed attempt inserted anywhere leaves the
success count that of the remaining attempts (the loop continues past it),
and the reported total equals the sum over all workers of their local
counters of successful publishes. -/
theorem published_total_is_sum_of_successes :
    (∀ attempts : List Bool,
        (publishLoop attempts).1 = attempts.count true ∧
        (publishLoop attempts).2 = attempts.length) ∧
    (∀ pre post : List Bool,
        publishLoop (pre ++ false :: post)
          = ((publishLoop (pre ++ post)).1, (publishLoop (pre ++ post)).2 + 1)) ∧
    (∀ runs : List WorkerRun,
        totalMessagesPublished runs = (runs.map workerPublished).sum) := by
  refine ⟨?_, ?_, ?_⟩
  · intro attempts
    rw [publishLoop_eq]
    exact ⟨rfl, rfl⟩
  · intro pre post
    rw [publishLoop_eq, publishLoop_eq]
    refine Prod.ext ?_ ?_ <;>
      simp [List.count_append, List.count_cons, List.length_append] <;>
      omega
  · intro runs
    have key : ∀ (rs : List WorkerRun) (a : Nat),
        rs.foldl (fun acc w => acc + workerPublished w) a
          = a + (rs.map workerPublished).sum := by
      intro rs
      induction rs with
      | nil => intro a; simp
      | cons w rest ih =>
        intro a
        rw [List.foldl_cons, ih]
        simp [Nat.add_assoc]
    have h := key runs 0
    simpa [totalMessagesPublished] using h

/-- The timed messages of a batch are in delivery order with non-decreasing
clock readings, all at or after the bound `t`. -/
def Chrono : Nat → List (Nat × String) → Prop
  | _, [] => True
  | t, m :: rest => t ≤ m.1 ∧ Chrono m.1 rest

/-- The clock reading of the last message of the batch (the bound `t` when
the batch is empty). -/
def lastTime (t : Nat) (l : List (Nat × String)) : Nat :=
  l.foldl (fun _ m => m.1) t

/-- A wait-loop schedule is chronological: within each iteration the batch
is time-ordered after the running bound and finishes no later than that
iteration's check-time reading, and the bound advances to the check time. -/
def ChronoSched : Nat → List Iteration → Prop
  | _, [] => True
  | t, it :: rest =>
    Chrono t it.batch ∧ lastTime t it.batch ≤ it.checkTime ∧ ChronoSched it.checkTime rest

/-- No message of the list is the `START_BENCHMARK` sentinel. -/
def noStart (l : List (Nat × String)) : Prop :=
  ∀ m ∈ l, m.2 ≠ "START_BENCHMARK"

/-- Within the list, no `START_BENCHMARK` is delivered after an
`END_BENCHMARK` (the sentinel order the publisher protocol produces). -/
def noStartAfterEnd : List (Nat × String) → Prop
  | [] => True
  | m :: rest => (m.2 = "END_BENCHMARK" → noStart rest) ∧ noStartAfterEnd rest

theorem lastTime_cons (t : Nat) (m : Nat × String) (rest : List (Nat × String)) :
    lastTime t (m :: rest) = lastTime m.1 rest := rfl

theorem chrono_le_lastTime :
    ∀ (l : List (Nat × String)) (t : Nat), Chrono t l → t ≤ lastTime t l := by
  intro l
  induction l with
  | nil => intro t _; exact Nat.le_refl t
  | cons m rest ih =>
    intro t h
    rcases h with ⟨h1, h2⟩
    rw [lastTime_cons]
    exact Nat.le_trans h1 (ih m.1 h2)

/-- Invariant of one `processMessages` batch: starting from a state whose
latched instants are bounded by `t` (with the end instant unset while the
ended flag is down), a chronological batch in which no `START_BENCHMARK`
follows an `END_BENCHMARK` keeps both instants bounded by the batch's last
instant, keeps the end instant unset while the flag is down, and
guarantees start ≤ end once the flag is up. -/
theorem runCallbacks_window_inv :
    ∀ (l : List (Nat × String)) (t : Nat) (st : SubState),
      Chrono t l → noStartAfterEnd l →
      (st.benchmarkEnded_Flag = true → noStart l) →
      st.startTime ≤ t → st.endTime ≤ t →
      (st.benchmarkEnded_Flag = true → st.startTime ≤ st.endTime) →
      (st.benchmarkEnded_Flag = false → st.endTime = 0) →
      (runCallbacks st l).startTime ≤ lastTime t l ∧
      (runCallbacks st l).endTime ≤ lastTime t l ∧
      ((runCallbacks st l).benchmarkEnded_Flag = true →
        (runCallbacks st l).startTime ≤ (runCallbacks st l).endTime) ∧
      ((runCallbacks st l).benchmarkEnded_Flag = false →
        (runCallbacks st l).endTime = 0) := by
  intro l
  induction l with
  | nil =>
    intro t st _ _ _ hs he hle hz
    exact ⟨hs, he, hle, hz⟩
  | cons m rest ih =>
    intro t st hch hnse hflagns hs he hle hz
    rcases hch with ⟨htm, hchrest⟩
    rcases hnse with ⟨hendns, hnserest⟩
    rw [runCallbacks_cons, lastTime_cons]
    by_cases hS : m.2 = "START_BENCHMARK"
    · -- a START message: forbidden once the flag is up
      have hflag : st.benchmarkEnded_Flag = false := by
        by_contra hcon
        have : st.benchmarkEnded_Flag = true := by
          cases hb : st.benchmarkEnded_Flag
          · exact absurd hb hcon
          · rfl
        exact (hflagns this m (List.mem_cons_self m rest)) hS
      refine ih m.1 (messageCallback m.1 st m.2) hchrest hnserest ?_ ?_ ?_ ?_ ?_
      · intro hf
        rw [messageCallback_flag, if_neg (by simp [hS])] at hf
        rw [hflag] at hf
        exact absurd hf (by simp)
      · rw [messageCallback_startTime, if_pos hS]
      · rw [messageCallback_endTime, if_neg (by simp [hS])]
        exact Nat.le_trans he htm
      · intro hf
        rw [messageCallback_flag, if_neg (by simp [hS])] at hf
        rw [hflag] at hf
        exact absurd hf (by simp)
      · intro _
        rw [messageCallback_endTime, if_neg (by simp [hS])]
        exact hz hflag
    · by_cases hE : m.2 = "END_BENCHMARK"
      · -- an END message: latches the end at a time at or after the start
        refine ih m.1 (messageCallback m.1 st m.2) hchrest hnserest ?_ ?_ ?_ ?_ ?_
        · intro _
          exact hendns hE
        · rw [messageCallback_startTime, if_neg hS]
          exact Nat.le_trans hs htm
        · rw [messageCallback_endTime, if_pos hE]
        · intro _
          rw [messageCallback_startTime, if_neg hS, messageCallback_endTime, if_pos hE]
          exact Nat.le_trans hs htm
        · intro hf
          rw [messageCallback_flag, if_pos hE] at hf
          exact absurd hf (by simp)
      · -- a payload message: the window state is untouched
        have hrest : st.benchmarkEnded_Flag = true → noStart rest :=
          fun hf m' hm' => hflagns hf m' (List.mem_cons_of_mem m hm')
        refine ih m.1 (messageCallback m.1 st m.2) hchrest hnserest ?_ ?_ ?_ ?_ ?_
        · intro hf
          rw [messageCallback_flag, if_neg hE] at hf
          exact hrest hf
        · rw [messageCallback_startTime, if_neg hS]
          exact Nat.le_trans hs htm
        · rw [messageCallback_endTime, if_neg hE]
          exact Nat.le_trans he htm
        · intro hf
          rw [messageCallback_flag, if_neg hE] at hf
          rw [messageCallback_startTime, if_neg hS, messageCallback_endTime, if_neg hE]
          exact hle hf
        · intro hf
          rw [messageCallback_flag, if_neg hE] at hf
          rw [messageCallback_endTime, if_neg hE]
          exact hz hf

theorem fixupTimes_of_end_zero (now ws : Nat) (st : SubState)
    (h : st.endTime = 0) :
    (fixupTimes now ws st).endTime = now ∧
    (fixupTimes now ws st).startTime =
      (if st.startTime = 0 then ws else st.startTime) := by
  unfold fixupTimes
  split_ifs with h1 <;> simp_all

/-- Invariant of the whole wait loop: from a state with the ended flag
down, the end instant unset, and the start instant bounded by the running
clock bound, any finalized state of a chronological, sentinel-ordered
schedule satisfies start ≤ end. -/
theorem runLoop_window_inv (waitStart timeoutSecs : Nat) :
    ∀ (sched : List Iteration) (t : Nat) (st : SubState),
      waitStart ≤ t →
      ChronoSched t sched →
      (∀ it ∈ sched, noStartAfterEnd it.batch) →
      st.benchmarkEnded_Flag = false →
      st.endTime = 0 →
      st.startTime ≤ t →
      ∀ fin, runLoop waitStart timeoutSecs st sched = some fin →
        fin.startTime ≤ fin.endTime := by
  intro sched
  induction sched with
  | nil =>
    intro t st _ _ _ _ _ _ fin hfin
    exact absurd hfin (by simp [runLoop])
  | cons it rest ih =>
    intro t st hwt hch hnse hflag hend hs fin hfin
    rcases hch with ⟨hchb, hlt, hchrest⟩
    have hinv := runCallbacks_window_inv it.batch t st hchb
      (hnse it (List.mem_cons_self it rest))
      (fun hf => absurd hf (by simp [hflag])) hs (hend ▸ Nat.zero_le t)
      (fun hf => absurd hf (by simp [hflag])) (fun _ => hend)
    rcases hinv with ⟨hs1, he1, hle1, hz1⟩
    have htL : t ≤ lastTime t it.batch := chrono_le_lastTime it.batch t hchb
    rw [runLoop] at hfin
    split_ifs at hfin with h1 h2 h3
    · rcases Option.some.inj hfin with h
      rw [← h]
      exact hle1 h1
    · rcases Option.some.inj hfin with h
      have hz : (runCallbacks st it.batch).endTime = 0 := hz1 (by
        cases hb : (runCallbacks st it.batch).benchmarkEnded_Flag
        · rfl
        · exact absurd hb h1)
      rcases fixupTimes_of_end_zero it.checkTime waitStart
        (runCallbacks st it.batch) hz with ⟨hfe, hfs⟩
      rw [← h, hfe, hfs]
      split_ifs with h0
      · exact Nat.le_trans hwt (Nat.le_trans htL hlt)
      · exact Nat.le_trans hs1 hlt
    · rcases Option.some.inj hfin with h
      have hz : (runCallbacks st it.batch).endTime = 0 := hz1 (by
        cases hb : (runCallbacks st it.batch).benchmarkEnded_Flag
        · rfl
        · exact absurd hb h1)
      rcases fixupTimes_of_end_zero it.checkTime waitStart
        (runCallbacks st it.batch) hz with ⟨hfe, hfs⟩
      rw [← h, hfe, hfs]
      split_ifs with h0
      · exact Nat.le_trans hwt (Nat.le_trans htL hlt)
      · exact Nat.le_trans hs1 hlt
    · refine ih it.checkTime (runCallbacks st it.batch)
        (Nat.le_trans hwt (Nat.le_trans htL hlt)) hchrest
        (fun x hx => hnse x (List.mem_cons_of_mem it hx)) ?_ ?_
        (Nat.le_trans hs1 hlt) fin hfin
      · cases hb : (runCallbacks st it.batch).benchmarkEnded_Flag
        · rfl
        · exact absurd hb h1
      · exact hz1 (by
          cases hb : (runCallbacks st it.batch).benchmarkEnded_Flag
          · rfl
          · exact absurd hb h1)

/-- C3 — amended: every finalized subscriber run satisfies start ≤ end
*provided* no `START_BENCHMARK` is delivered after an `END_BENCHMARK`
(the order the publisher protocol produces) and the delivery/check clock
readings are chronological; this covers both sentinel-driven and
forced-timeout finalization.  Without that proviso the invariant fails —
see the out-of-order counterexample. -/
theorem window_monotone_of_ordered_sentinels (waitStart timeoutSecs : Nat)
    (sched : List Iteration)
    (hch : ChronoSched waitStart sched)
    (hnse : ∀ it ∈ sched, noStartAfterEnd it.batch) :
    ∀ fin, runLoop waitStart timeoutSecs initState sched = some fin →
      fin.startTime ≤ fin.endTime :=
  runLoop_window_inv waitStart timeoutSecs sched waitStart initState
    (Nat.le_refl waitStart) hch hnse rfl rfl (Nat.zero_le waitStart)

/-- C3 witness: `window_monotone_of_ordered_sentinels` on a concrete
well-ordered run — START at 20, END at 30, checked at 40, after
`waitStart = 10` — whose finalized state latches start 20 ≤ end 30. -/
theorem window_monotone_witness :
    ({ messagesReceived := 0, benchmarkStarted := true, benchmarkEnded_Flag := true,
       startTime := 20, endTime := 30 } : SubState).startTime ≤
    ({ messagesReceived := 0, benchmarkStarted := true, benchmarkEnded_Flag := true,
       startTime := 20, endTime := 30 } : SubState).endTime :=
  window_monotone_of_ordered_sentinels 10 25
    [{ batch := [(20, "START_BENCHMARK"), (30, "END_BENCHMARK")], checkTime := 40 }]
    ⟨⟨by decide, by decide, trivial⟩, by decide, trivial⟩
    (by
      intro it hit
      rcases List.mem_singleton.mp hit with h
      subst h
      refine ⟨?_, ?_, trivial⟩
      · intro hcon
        exact absurd hcon (by decide)
      · intro _ m hm
        exact absurd hm (List.not_mem_nil m))
    _ (by decide)

/-- C3 — counterexample to the claim as stated: a run whose single
`processMessages` batch delivers `END_BENCHMARK` at 20 and then a stray
`START_BENCHMARK` at 30 finalizes (via the ended flag) with start
instant 30 strictly greater than end instant 20. -/
theorem window_monotonicity_violated :
    runLoop 10 25 initState
      [{ batch := [(20, "END_BENCHMARK"), (30, "START_BENCHMARK")], checkTime := 40 }]
      = some { messagesReceived := 0, benchmarkStarted := true,
               benchmarkEnded_Flag := true, startTime := 30, endTime := 20 } ∧
    ¬ (((runLoop 10 25 initState
      [{ batch := [(20, "END_BENCHMARK"), (30, "START_BENCHMARK")], checkTime := 40 }]).getD
        initState).startTime ≤
      ((runLoop 10 25 initState
      [{ batch := [(20, "END_BENCHMARK"), (30, "START_BENCHMARK")], checkTime := 40 }]).getD
        initState).endTime) := by
  constructor <;> decide

theorem messageCallback_received_of_not_started (now : Nat) (st : SubState)
    (m : String) (h : st.benchmarkStarted = false) :
    (messageCallback now st m).messagesReceived = st.messagesReceived := by
  unfold messageCallback
  split_ifs <;> simp_all

theorem runCallbacks_noStart :
    ∀ (l : List (Nat × String)) (st : SubState),
      noStart l → st.benchmarkStarted = false →
      (runCallbacks st l).benchmarkStarted = false ∧
      (runCallbacks st l).messagesReceived = st.messagesReceived ∧
      (runCallbacks st l).startTime = st.startTime := by
  intro l
  induction l with
  | nil => intro st _ h; exact ⟨h, rfl, rfl⟩
  | cons m rest ih =>
    intro st hns hstart
    have hS : m.2 ≠ "START_BENCHMARK" := hns m (List.mem_cons_self m rest)
    rw [runCallbacks_cons]
    have h1 : (messageCallback m.1 st m.2).benchmarkStarted = false := by
      rw [messageCallback_started, if_neg hS]
      exact hstart
    rcases ih (messageCallback m.1 st m.2)
      (fun x hx => hns x (List.mem_cons_of_mem m hx)) h1 with ⟨ha, hb, hc⟩
    refine ⟨ha, ?_, ?_⟩
    · rw [hb, messageCallback_received_of_not_started _ _ _ hstart]
    · rw [hc, messageCallback_startTime, if_neg hS]

theorem runCallbacks_flag_end :
    ∀ (l : List (Nat × String)) (st : SubState),
      (st.benchmarkEnded_Flag = false → st.endTime = 0) →
      ((runCallbacks st l).benchmarkEnded_Flag = false →
        (runCallbacks st l).endTime = 0) := by
  intro l
  induction l with
  | nil => intro st h; exact h
  | cons m rest ih =>
    intro st h
    rw [runCallbacks_cons]
    apply ih
    intro hf
    rw [messageCallback_flag] at hf
    rw [messageCallback_endTime]
    by_cases hE : m.2 = "END_BENCHMARK"
    · rw [if_pos hE] at hf
      exact absurd hf (by simp)
    · rw [if_neg hE] at hf
      rw [if_neg hE]
      exact h hf

theorem fixupTimes_received (now ws : Nat) (st : SubState) :
    (fixupTimes now ws st).messagesReceived = st.messagesReceived := by
  unfold fixupTimes
  by_cases h1 : st.startTime = 0 <;> by_cases h2 : st.endTime = 0 <;>
    simp [h1, h2]

theorem fixupTimes_started (now ws : Nat) (st : SubState) :
    (fixupTimes now ws st).benchmarkStarted = st.benchmarkStarted := by
  unfold fixupTimes
  by_cases h1 : st.startTime = 0 <;> by_cases h2 : st.endTime = 0 <;>
    simp [h1, h2]

/-- Liveness of the wait loop when `START_BENCHMARK` never arrives: from a
not-yet-started state the loop reaches a finalized state no later than the
first check past the 15 s grace period, with zero received messages, the
started flag still down, and a non-negative window. -/
theorem runLoop_liveness (waitStart timeoutSecs : Nat) :
    ∀ (sched : List Iteration) (t : Nat) (st : SubState),
      waitStart ≤ t →
      ChronoSched t sched →
      (∀ it ∈ sched, noStart it.batch) →
      st.benchmarkStarted = false →
      st.messagesReceived = 0 →
      st.startTime = 0 →
      (st.benchmarkEnded_Flag = false → st.endTime = 0) →
      (∃ it, it ∈ sched ∧ 15 < (it.checkTime - waitStart) / 1000000) →
      ∃ fin, runLoop waitStart timeoutSecs st sched = some fin ∧
        fin.messagesReceived = 0 ∧ fin.benchmarkStarted = false ∧
        fin.startTime ≤ fin.endTime := by
  intro sched
  induction sched with
  | nil =>
    intro t st _ _ _ _ _ _ _ hexp
    rcases hexp with ⟨it0, hit0, -⟩
    exact absurd hit0 (List.not_mem_nil it0)
  | cons it rest ih =>
    intro t st hwt hch hns hstarted hrecv hstart hflagend hexp
    rcases hch with ⟨hchb, hlt, hchrest⟩
    rcases runCallbacks_noStart it.batch st (hns it (List.mem_cons_self it rest))
      hstarted with ⟨hstarted1, hrecv1a, hstart1a⟩
    have hrecv1 : (runCallbacks st it.batch).messagesReceived = 0 := by
      rw [hrecv1a, hrecv]
    have hstart1 : (runCallbacks st it.batch).startTime = 0 := by
      rw [hstart1a, hstart]
    have hflagend1 := runCallbacks_flag_end it.batch st hflagend
    have hstep : runLoop waitStart timeoutSecs st (it :: rest) =
        (if (runCallbacks st it.batch).benchmarkEnded_Flag then
          some (runCallbacks st it.batch)
        else if 15 < (it.checkTime - waitStart) / 1000000 ∧
            (runCallbacks st it.batch).benchmarkStarted = false then
          some (fixupTimes it.checkTime waitStart (runCallbacks st it.batch))
        else if timeoutSecs < (it.checkTime - waitStart) / 1000000 then
          some (fixupTimes it.checkTime waitStart (runCallbacks st it.batch))
        else runLoop waitStart timeoutSecs (runCallbacks st it.batch) rest) := rfl
    have hwtc : waitStart ≤ it.checkTime :=
      Nat.le_trans hwt (Nat.le_trans (chrono_le_lastTime it.batch t hchb) hlt)
    by_cases h1 : (runCallbacks st it.batch).benchmarkEnded_Flag = true
    · refine ⟨runCallbacks st it.batch, ?_, hrecv1, hstarted1, ?_⟩
      · rw [hstep, if_pos h1]
      · rw [hstart1]
        exact Nat.zero_le _
    · have h1f : (runCallbacks st it.batch).benchmarkEnded_Flag = false := by
        cases hb : (runCallbacks st it.batch).benchmarkEnded_Flag
        · rfl
        · exact absurd hb h1
      have hend1 : (runCallbacks st it.batch).endTime = 0 := hflagend1 h1f
      rcases fixupTimes_of_end_zero it.checkTime waitStart
        (runCallbacks st it.batch) hend1 with ⟨hfe, hfs⟩
      by_cases h2 : 15 < (it.checkTime - waitStart) / 1000000
      · refine ⟨fixupTimes it.checkTime waitStart (runCallbacks st it.batch),
          ?_, ?_, ?_, ?_⟩
        · rw [hstep, if_neg h1, if_pos ⟨h2, hstarted1⟩]
        · rw [fixupTimes_received, hrecv1]
        · rw [fixupTimes_started, hstarted1]
        · rw [hfe, hfs, if_pos hstart1]
          exact hwtc
      · have hnot2 : ¬(15 < (it.checkTime - waitStart) / 1000000 ∧
            (runCallbacks st it.batch).benchmarkStarted = false) :=
          fun hc => h2 hc.1
        by_cases h3 : timeoutSecs < (it.checkTime - waitStart) / 1000000
        · refine ⟨fixupTimes it.checkTime waitStart (runCallbacks st it.batch),
            ?_, ?_, ?_, ?_⟩
          · rw [hstep, if_neg h1, if_neg hnot2, if_pos h3]
          · rw [fixupTimes_received, hrecv1]
          · rw [fixupTimes_started, hstarted1]
          · rw [hfe, hfs, if_pos hstart1]
            exact hwtc
        · rcases hexp with ⟨it0, hit0, hP⟩
          rcases List.mem_cons.mp hit0 with heq | hmem
          · subst heq
            exact absurd hP h2
          · rcases ih it.checkTime (runCallbacks st it.batch) hwtc hchrest
              (fun x hx => hns x (List.mem_cons_of_mem it hx))
              hstarted1 hrecv1 hstart1 hflagend1 ⟨it0, hmem, hP⟩ with
              ⟨fin, hfin, hprops⟩
            refine ⟨fin, ?_, hprops⟩
            rw [hstep, if_neg h1, if_neg hnot2, if_neg h3]
            exact hfin

/-- C7: when no `START_BENCHMARK` is ever delivered, the subscriber does
not wait forever: on a chronological schedule containing a check more than
15 s (the `NO_MESSAGE_TIMEOUT_SECONDS` grace period) after `waitStart`,
the loop finalizes — at the latest by that check, via the forced
"no START received" exit — and reports `received = 0`, the started flag
still down, and a valid degenerate window with start ≤ end. -/
theorem liveness_timeout_finalizes (waitStart publishDuration : Nat)
    (sched : List Iteration)
    (hch : ChronoSched waitStart sched)
    (hns : ∀ it ∈ sched, noStart it.batch)
    (hexp : ∃ it, it ∈ sched ∧ 15 < (it.checkTime - waitStart) / 1000000) :
    ∃ fin, runLoop waitStart (publishDuration + 15) initState sched = some fin ∧
      fin.messagesReceived = 0 ∧ fin.benchmarkStarted = false ∧
      fin.startTime ≤ fin.endTime :=
  runLoop_liveness waitStart (publishDuration + 15) sched waitStart initState
    (Nat.le_refl waitStart) hch hns rfl rfl rfl (fun _ => rfl) hexp

/-- C7 witness: `liveness_timeout_finalizes` on a schedule that delivers
nothing and reaches its check 20 s (20 000 000 µs) after `waitStart = 0`,
with the default 10 s publish duration. -/
theorem liveness_timeout_finalizes_witness :
    ∃ fin, runLoop 0 (10 + 15) initState [{ batch := [], checkTime := 20000000 }]
        = some fin ∧
      fin.messagesReceived = 0 ∧ fin.benchmarkStarted = false ∧
      fin.startTime ≤ fin.endTime :=
  liveness_timeout_finalizes 0 10 [{ batch := [], checkTime := 20000000 }]
    ⟨trivial, Nat.zero_le _, trivial⟩
    (by
      intro it hit
      rcases List.mem_singleton.mp hit with h
      subst h
      intro m hm
      exact absurd hm (List.not_mem_nil m))
    ⟨{ batch := [], checkTime := 20000000 }, List.mem_singleton.mpr rfl, by decide⟩
